import Mathlib

/-!
Shallow embedding of the blksnap kernel module core (CBT map, chunk state
machine, snapshot lifecycle, event queue, snapshot image creation), with
theorems checking the natural-language specification against the code.

Machine integers are modelled as `Nat`/`Int`; byte cells of the CBT maps
take values below 256 and the explicit `(u8)` casts of the source are kept
as `% 256`.  The `big_buffer` byte-array helpers are not part of the source
tree; they are modelled from the spec ("a read-map and a write-map, each a
byte array of length block-count").
-/

/-- Sector shift of the Linux block layer: a sector is `2^9` bytes. -/
def SECTOR_SHIFT : Nat := 9

/-! ## big_buffer (modelled from the spec) -/

/-- Modelled from the spec: the `big_buffer` byte array, missing from the
source tree, is a byte array; reading a cell succeeds exactly when the
index is in range. -/
def big_buffer_byte_get (buf : List Nat) (idx : Nat) : Option Nat :=
  buf[idx]?

/-- Modelled from the spec: writing a cell of the `big_buffer` byte array
succeeds exactly when the index is in range. -/
def big_buffer_byte_set (buf : List Nat) (idx : Nat) (v : Nat) :
    Option (List Nat) :=
  if idx < buf.length then some (buf.set idx v) else none

/-- Modelled from the spec: `big_buffer_memcpy` copies the whole source
buffer over the destination (both maps have the same length). -/
def big_buffer_memcpy (_dst src : List Nat) : List Nat := src

/-- Modelled from the spec: `big_buffer_memset(buf, 0)` zeroes the buffer. -/
def big_buffer_memset0 (buf : List Nat) : List Nat :=
  List.replicate buf.length 0

/-! ## CBT map (src/module/cbt_map.c) -/

/-- The CBT map state: `struct cbt_map`.  The generation UUID is abstracted
as a `Nat`; the two maps are byte arrays of length `blk_count`. -/
structure CbtMap where
  device_capacity : Nat
  blk_size_shift : Nat
  blk_count : Nat
  read_map : List Nat
  write_map : List Nat
  snap_number_active : Nat
  snap_number_previous : Nat
  generation_id : Nat
  is_corrupted : Bool
  deriving Repr, DecidableEq

/-- `count_by_shift` from cbt_map.c: `round_up(capacity, blk_size) / blk_size`
with `blk_size = 1 << (shift - SECTOR_SHIFT)`; `round_up` is the kernel
macro, which for a power-of-two alignment equals
`((x + y - 1) / y) * y`. -/
def count_by_shift (capacity shift : Nat) : Nat :=
  let blk_size := 2 ^ (shift - SECTOR_SHIFT)
  ((capacity + blk_size - 1) / blk_size * blk_size) / blk_size

/-- The `while (count > tracking_block_maximum_count)` loop of
`cbt_map_calculate_block_size`, with explicit fuel (the source loop has no
bound; the theorems prove the fuel chosen below is never exhausted for the
real parameter ranges). Returns the final shift. -/
def calculate_block_size_loop (capacity maxCount : Nat) :
    Nat → Nat → Option Nat
  | 0, _ => none
  | fuel + 1, shift =>
    if count_by_shift capacity shift > maxCount then
      calculate_block_size_loop capacity maxCount fuel (shift * 2)
    else
      some shift

/-- `cbt_map_calculate_block_size`: derive `blk_size_shift` and `blk_count`
from the device capacity and the module parameters. -/
def cbt_map_calculate_block_size (minShift maxCount capacity : Nat) :
    Option (Nat × Nat) :=
  match calculate_block_size_loop capacity maxCount (capacity + 1) minShift with
  | some shift => some (shift, count_by_shift capacity shift)
  | none => none

/-- `cbt_map_switch` from cbt_map.c.  Drawing a fresh random UUID is
modelled by the `freshUuid` argument. -/
def cbt_map_switch (m : CbtMap) (freshUuid : Nat) : CbtMap :=
  let m := { m with read_map := big_buffer_memcpy m.read_map m.write_map }
  let m := { m with snap_number_previous := m.snap_number_active,
                    snap_number_active := m.snap_number_active + 1 }
  if m.snap_number_active = 256 then
    { m with snap_number_active := 1,
             write_map := big_buffer_memset0 m.write_map,
             generation_id := freshUuid }
  else
    m

/-- The body of the `for (cbt_block = first; cbt_block <= last; ++cbt_block)`
loop of `_cbt_map_set`, iterated over the explicit list of block indices.
Returns the `res` error code of the loop and the updated map. -/
def cbt_map_set_blocks (blkCount snapNumber : Nat) :
    List Nat → List Nat → Int × List Nat
  | map, [] => (0, map)
  | map, blk :: rest =>
    if blk ≥ blkCount then
      (-22, map)
    else
      match big_buffer_byte_get map blk with
      | none => (-14, map)
      | some num =>
        if num < snapNumber then
          match big_buffer_byte_set map blk snapNumber with
          | none => (-14, map)
          | some map2 => cbt_map_set_blocks blkCount snapNumber map2 rest
        else
          cbt_map_set_blocks blkCount snapNumber map rest

/-- First block index of a sector range: `sector_start >> (shift - SECTOR_SHIFT)`. -/
def cbt_block_first (m : CbtMap) (sector_start : Nat) : Nat :=
  sector_start >>> (m.blk_size_shift - SECTOR_SHIFT)

/-- Last (inclusive) block index of a sector range:
`(sector_start + sector_cnt - 1) >> (shift - SECTOR_SHIFT)`. -/
def cbt_block_last (m : CbtMap) (sector_start sector_cnt : Nat) : Nat :=
  (sector_start + sector_cnt - 1) >>> (m.blk_size_shift - SECTOR_SHIFT)

/-- `_cbt_map_set` from cbt_map.c: walk the blocks overlapping the sector
range, upgrading each cell to `snap_number` when its current value is
smaller; break with `-EINVAL` at the first out-of-range block index. -/
def _cbt_map_set (m : CbtMap) (sector_start sector_cnt snapNumber : Nat)
    (map : List Nat) : Int × List Nat :=
  cbt_map_set_blocks m.blk_count snapNumber map
    (List.range' (cbt_block_first m sector_start)
      (cbt_block_last m sector_start sector_cnt + 1
        - cbt_block_first m sector_start))

/-- `cbt_map_set` from cbt_map.c: fail if corrupted; apply `_cbt_map_set`
to the write map with the `(u8)` cast of the active snap number; latch
`is_corrupted` when the walk failed. -/
def cbt_map_set (m : CbtMap) (sector_start sector_cnt : Nat) : Int × CbtMap :=
  if m.is_corrupted then
    (-22, m)
  else
    let r := _cbt_map_set m sector_start sector_cnt
      (m.snap_number_active % 256) m.write_map
    if r.1 ≠ 0 then
      (r.1, { m with write_map := r.2, is_corrupted := true })
    else
      (r.1, { m with write_map := r.2 })

/-- `cbt_map_set_both` from cbt_map.c: fail if corrupted; apply
`_cbt_map_set` to the write map with the active snap number and, when that
succeeded, to the read map with the previous snap number.  Note: unlike
`cbt_map_set`, it never latches `is_corrupted`. -/
def cbt_map_set_both (m : CbtMap) (sector_start sector_cnt : Nat) :
    Int × CbtMap :=
  if m.is_corrupted then
    (-22, m)
  else
    let r := _cbt_map_set m sector_start sector_cnt
      (m.snap_number_active % 256) m.write_map
    if r.1 = 0 then
      let r2 := _cbt_map_set m sector_start sector_cnt
        (m.snap_number_previous % 256) m.read_map
      (r2.1, { m with write_map := r.2, read_map := r2.2 })
    else
      (r.1, { m with write_map := r.2 })

/-- Modelled from the spec: `big_buffer_copy_to_user` copies `length` bytes
of the buffer starting at `offset` to userspace and returns the number of
bytes actually copied; the copy can stop short (`copied` models how many
bytes the user copy transfers before faulting, the remainder is reported as
left over). -/
def big_buffer_copy_to_user (buf : List Nat) (offset length copied : Nat) :
    Nat × List Nat :=
  (min copied length, ((buf.drop offset).take length).take copied)

/-- `cbt_map_read_to_user` from cbt_map.c: fail with `-EFAULT` once
corrupted; otherwise copy `min(blk_count - offset, size)` bytes of the
read map at `offset` out and return the number of bytes transferred,
together with the bytes delivered to the user. -/
def cbt_map_read_to_user (m : CbtMap) (offset size copied : Nat) :
    Except Int (Nat × List Nat) :=
  let real_size := min (m.blk_count - offset) size
  if m.is_corrupted then
    .error (-14)
  else
    let r := big_buffer_copy_to_user m.read_map offset real_size copied
    let left_size := real_size - r.1
    if left_size = 0 then
      .ok (real_size, r.2)
    else
      .ok (real_size - left_size, r.2)

/-- A userspace block range: `struct blk_snap_block_range`. -/
structure BlockRange where
  sector_offset : Nat
  sector_count : Nat
  deriving Repr, DecidableEq

/-- `cbt_map_mark_dirty_blocks` from cbt_map.c: apply `cbt_map_set_both`
to each range in order, stopping at the first failure. -/
def cbt_map_mark_dirty_blocks (m : CbtMap) :
    List BlockRange → Int × CbtMap
  | [] => (0, m)
  | r :: rest =>
    let res := cbt_map_set_both m r.sector_offset r.sector_count
    if res.1 ≠ 0 then res
    else cbt_map_mark_dirty_blocks res.2 rest

/-- Block `i` (of `2^s` sectors) overlaps the sector range
`[start, start+cnt)`. -/
def blockOverlaps (s start cnt i : Nat) : Prop :=
  i * 2 ^ s < start + cnt ∧ start < (i + 1) * 2 ^ s

instance (s start cnt i : Nat) : Decidable (blockOverlaps s start cnt i) :=
  inferInstanceAs (Decidable (_ ∧ _))

/-! ## Chunk state machine (src/module/chunk.c) -/

/-- The per-chunk state: `struct chunk`, with the `CHUNK_ST_*` bitset
broken out into booleans. -/
structure Chunk where
  number : Nat
  st_loading : Bool
  st_storing : Bool
  st_buffer_ready : Bool
  st_store_ready : Bool
  st_in_cache : Bool
  st_failed : Bool
  error : Int
  has_diff_buffer : Bool
  has_diff_store : Bool
  deriving Repr, DecidableEq

/-- The per-device diff area, restricted to the fields the chunk handlers
touch: the sticky corruption latch (modelled from the spec: "corrupted flag
with sticky first-error code", `diff_area_set_corrupted` is not in the
source tree), the in-memory mode flag and the cache list. -/
structure DiffArea where
  corrupted : Bool
  corrupted_err : Int
  in_memory : Bool
  caching_chunks : List Nat
  deriving Repr, DecidableEq

/-- Modelled from the spec: `diff_area_set_corrupted` latches the first
error code; once corrupted, later errors do not overwrite it. -/
def diff_area_set_corrupted (d : DiffArea) (err : Int) : DiffArea :=
  if d.corrupted then d else { d with corrupted := true, corrupted_err := err }

/-- `chunk_store_failed` from chunk.c: set `CHUNK_ST_FAILED`, release the
diff buffer, free the diff-storage reservation, and mark the owning diff
area corrupted with the error. -/
def chunk_store_failed (c : Chunk) (d : DiffArea) (err : Int) :
    Chunk × DiffArea :=
  ({ c with st_failed := true, has_diff_buffer := false,
            has_diff_store := false },
   diff_area_set_corrupted d err)

/-- `chunk_schedule_caching` from chunk.c: when the chunk is not yet in
the cache, set `CHUNK_ST_IN_CACHE` and append it at the tail of the diff
area's caching list. -/
def chunk_schedule_caching (c : Chunk) (d : DiffArea) : Chunk × DiffArea :=
  if ¬c.st_in_cache then
    ({ c with st_in_cache := true },
     { d with caching_chunks := d.caching_chunks ++ [c.number] })
  else
    (c, d)

/-- `chunk_async_store_diff` from chunk.c (the complete variant): set
`CHUNK_ST_STORING` and submit the write; `dmIoRet` models the return value
of `dm_io`. -/
def chunk_async_store_diff (c : Chunk) (dmIoRet : Int) : Int × Chunk :=
  (dmIoRet, { c with st_storing := true })

/-- `chunk_schedule_storing` from chunk.c: in in-memory mode, nothing to
do; otherwise obtain a diff-storage reservation when there is none
(`storeRes` models the result of `diff_storage_get_store`), failing the
chunk on error, then start the asynchronous store, failing the chunk if
submission fails. -/
def chunk_schedule_storing (c : Chunk) (d : DiffArea)
    (storeRes : Except Int Unit) (dmIoRet : Int) : Chunk × DiffArea :=
  if d.in_memory then
    (c, d)
  else if c.has_diff_store = false then
    match storeRes with
    | .error e => chunk_store_failed c d e
    | .ok _ =>
      let c2 := { c with has_diff_store := true }
      let r := chunk_async_store_diff c2 dmIoRet
      if r.1 ≠ 0 then chunk_store_failed r.2 d r.1 else (r.2, d)
  else
    let r := chunk_async_store_diff c dmIoRet
    if r.1 ≠ 0 then chunk_store_failed r.2 d r.1 else (r.2, d)

/-- `chunk_notify_load` from chunk.c: the completion handler of the
asynchronous read of a chunk from the original device. -/
def chunk_notify_load (c : Chunk) (d : DiffArea)
    (storeRes : Except Int Unit) (dmIoRet : Int) : Chunk × DiffArea :=
  if c.error ≠ 0 then
    chunk_store_failed c d c.error
  else if c.st_failed then
    (c, d)
  else if c.st_loading then
    chunk_schedule_storing
      { c with st_loading := false, st_buffer_ready := true } d storeRes dmIoRet
  else
    (c, d)

/-- `chunk_notify_store` from chunk.c: the completion handler of the
asynchronous write of a chunk into the difference storage. -/
def chunk_notify_store (c : Chunk) (d : DiffArea) : Chunk × DiffArea :=
  if c.error ≠ 0 then
    chunk_store_failed c d c.error
  else if c.st_failed then
    (c, d)
  else if c.st_storing then
    chunk_schedule_caching
      { c with st_storing := false, st_store_ready := true } d
  else
    (c, d)

/-! ## Snapshot lifecycle (src/module/snapshot.c) -/

/-- A tracker, restricted to the fields `snapshot_take` touches: the
`snapshot_is_taken` flag (set by `tracker_take_snapshot`, cleared by
`tracker_release_snapshot`; both are modelled from the spec, their bodies
are not in the source tree) and whether a diff area is attached. -/
structure TrackerS where
  taken : Bool
  has_diff_area : Bool
  deriving Repr, DecidableEq

/-- The environment of one `snapshot_take` run: which per-tracker steps
succeed and with which error codes they fail.  `diff_area_new`,
`tracker_take_snapshot`, `diff_area_is_corrupted` and `snapimage_create`
are external to snapshot.c; their outcomes are inputs of the model. -/
structure TakeEnv where
  diffAreaOk : Nat → Bool
  errDiffArea : Int
  takeOk : Nat → Bool
  errTake : Int
  corruptedAfter : Nat → Bool
  imageOk : Nat → Bool
  errImage : Int

/-- The observable outcome of `snapshot_take`: the returned error code,
the final tracker states, whether the snapshot is still in the global
registry, its `is_taken` flag, whether it was freed, and which snap images
exist. -/
structure TakeOutcome where
  ret : Int
  trackers : List TrackerS
  in_registry : Bool
  is_taken : Bool
  freed : Bool
  images : List Bool
  deriving Repr, DecidableEq

/-- The diff-area allocation loop of `snapshot_take` (step 1): attach a
diff area to each tracker; stop at the first failure. -/
def take_diff_areas (env : TakeEnv) : Nat → List TrackerS → Int × List TrackerS
  | _, [] => (0, [])
  | i, t :: rest =>
    if env.diffAreaOk i then
      let r := take_diff_areas env (i + 1) rest
      (r.1, { t with has_diff_area := true } :: r.2)
    else
      (env.errDiffArea, t :: rest)

/-- The take loop of `snapshot_take` (step 4): call `tracker_take_snapshot`
on each tracker in order; on the first failure stop, reporting the failing
index.  Returns `(res, failIdx?, trackers)`. -/
def take_trackers (env : TakeEnv) : Nat → List TrackerS →
    Int × Option Nat × List TrackerS
  | _, [] => (0, none, [])
  | i, t :: rest =>
    if env.takeOk i then
      let r := take_trackers env (i + 1) rest
      (r.1, r.2.1, { t with taken := true } :: r.2.2)
    else
      (env.errTake, some i, t :: rest)

/-- The rollback `while (inx--)` of `snapshot_take`: release the trackers
before the failing index (modelled from the spec:
`tracker_release_snapshot` clears the taken flag). -/
def release_first (k : Nat) (ts : List TrackerS) : List TrackerS :=
  match k, ts with
  | 0, ts => ts
  | _ + 1, [] => []
  | k + 1, t :: rest => { t with taken := false } :: release_first k rest

/-- The corruption check of `snapshot_take` (step 7): `true` iff some
tracker's diff area reports corrupted. -/
def any_corrupted (env : TakeEnv) (i n : Nat) : Bool :=
  (List.range' i n).any env.corruptedAfter

/-- The image-creation loop of `snapshot_take` (step 8): create a snap
image per tracker; stop at the first failure.  Returns the error code and
which images were created. -/
def take_images (env : TakeEnv) : Nat → Nat → Int × List Bool
  | _, 0 => (0, [])
  | i, n + 1 =>
    if env.imageOk i then
      let r := take_images env (i + 1) n
      (r.1, true :: r.2)
    else
      (env.errImage, false :: List.replicate n false)

/-- `snapshot_release` from snapshot.c, restricted to the tracker state:
every tracker is released (taken cleared) and its diff area detached. -/
def snapshot_release_trackers (ts : List TrackerS) : List TrackerS :=
  ts.map (fun t => { t with taken := false, has_diff_area := false })

/-- `snapshot_take` from snapshot.c, for a snapshot already found in the
registry: `is_taken0` its current flag, `ts` its trackers (all entries
non-null, as established by `snapshot_create`).  The `fail:` label removes
the snapshot from the registry and drops both references, so the snapshot
is freed; `snapshot_free` runs `snapshot_release` when `is_taken` was set. -/
def snapshot_take (env : TakeEnv) (is_taken0 : Bool) (ts : List TrackerS) :
    TakeOutcome :=
  if is_taken0 then
    { ret := -114, trackers := ts, in_registry := true, is_taken := true,
      freed := false, images := [] }
  else if ts.length = 0 then
    { ret := -19, trackers := ts, in_registry := true, is_taken := false,
      freed := false, images := [] }
  else
    let rd := take_diff_areas env 0 ts
    if rd.1 ≠ 0 then
      -- goto fail with is_taken still false: removed from the registry and
      -- freed, without snapshot_release.
      { ret := rd.1, trackers := rd.2, in_registry := false,
        is_taken := false, freed := true, images := [] }
    else
      let rt := take_trackers env 0 rd.2
      match rt.2.1 with
      | some k =>
        -- Step 4 failed: roll back the trackers already taken, then fail.
        let ts2 := release_first k rt.2.2
        { ret := rt.1, trackers := ts2, in_registry := false,
          is_taken := false, freed := true, images := [] }
      | none =>
        -- All taken; is_taken := true.
        let ts2 := rt.2.2
        if any_corrupted env 0 ts2.length then
          -- Step 7 failed: goto fail; the snapshot was taken, so freeing it
          -- runs snapshot_release on every tracker.
          { ret := -14, trackers := snapshot_release_trackers ts2,
            in_registry := false, is_taken := true, freed := true,
            images := [] }
        else
          -- Step 8: create the images; any failure only breaks the loop and
          -- falls through to out.
          let ri := take_images env 0 ts2.length
          { ret := ri.1, trackers := ts2, in_registry := true,
            is_taken := true, freed := false, images := ri.2 }

/-! ## Event queue (src/module/event_queue.c) -/

/-- An event to be passed to userspace: `struct event` (the monotonic
timestamp is abstracted as a `Nat`). -/
structure Event where
  time : Nat
  code : Int
  data : List Nat
  deriving Repr, DecidableEq

/-- `event_gen` from event_queue.c: allocate the event (`allocOk` models
kzalloc) and append it at the tail of the queue. -/
def event_gen (allocOk : Bool) (q : List Event) (time : Nat) (code : Int)
    (data : List Nat) : Int × List Event :=
  if allocOk then (0, q ++ [⟨time, code, data⟩]) else (-12, q)

/-- What ends the interruptible timed wait when the queue is empty. -/
inductive WaitSig where
  | timeout
  | interrupted
  deriving Repr, DecidableEq

/-- `event_wait` from event_queue.c: if an event is queued the wait
returns positive and the oldest event is removed and returned; on an empty
queue a timeout yields `-ENOENT` and an interrupt yields `-EINTR`. -/
def event_wait (q : List Event) (sig : WaitSig) :
    Except Int Event × List Event :=
  match q with
  | e :: rest => (.ok e, rest)
  | [] =>
    match sig with
    | .timeout => (.error (-2), [])
    | .interrupted => (.error (-4), [])

/-- Generate a list of events in order (all allocations succeeding). -/
def event_gen_all (q : List Event) : List Event → List Event
  | [] => q
  | e :: es => event_gen_all (event_gen true q e.time e.code e.data).2 es

/-- Perform `n` successive waits, collecting the results. -/
def event_wait_n (q : List Event) : Nat → List (Except Int Event) × List Event
  | 0 => ([], q)
  | n + 1 =>
    let r := event_wait q .timeout
    let rs := event_wait_n r.2 n
    (r.1 :: rs.1, rs.2)

/-! ## Snapshot image creation (src/module/snapimage.c) -/

/-- Modelled from the spec: the fixed opaque disk-name prefix
(`SNAP_IMAGE_NAME`, defined in a header missing from the source tree). -/
def SNAP_IMAGE_NAME : String := "blksnap-image"

/-- Upper bound on image devices: `SNAPIMAGE_MAX_DEVICES`. -/
def SNAPIMAGE_MAX_DEVICES : Nat := 2048

/-- The observable configuration of a created snapshot-image block
device. -/
structure SnapImage where
  capacity : Nat
  logical_block_size : Nat
  physical_block_size : Nat
  minors : Nat
  first_minor : Nat
  no_part_scan : Bool
  disk_name : String
  deriving Repr, DecidableEq

/-- `bitmap_find_free_region(snapimage_minors, SNAPIMAGE_MAX_DEVICES, 0)`:
the first clear bit of the minors bitmap, if any. -/
def find_free_minor (used : List Bool) : Option Nat :=
  (used.take SNAPIMAGE_MAX_DEVICES).findIdx? (fun b => !b)

/-- `_snapimage_create` from snapimage.c: allocate a minor, publish the
original device's capacity, fix 512-byte logical and physical block sizes,
a single partition slot with partition scanning disabled, and the disk
name `SNAP_IMAGE_NAME ++ minor`. -/
def _snapimage_create (used : List Bool) (origCapacity : Nat) :
    Option SnapImage :=
  match find_free_minor used with
  | none => none
  | some minor =>
    some { capacity := origCapacity,
           logical_block_size := 512,
           physical_block_size := 512,
           minors := 1,
           first_minor := minor,
           no_part_scan := true,
           disk_name := SNAP_IMAGE_NAME ++ toString minor }

/-! ## Concrete states used by witnesses and counterexamples -/

/-- A CBT map about to overflow: `active = 255`. -/
def cbtOverflow : CbtMap :=
  { device_capacity := 8, blk_size_shift := 9, blk_count := 1,
    read_map := [3], write_map := [7], snap_number_active := 255,
    snap_number_previous := 254, generation_id := 0, is_corrupted := false }

/-- A one-block CBT map (`blk_size_shift = SECTOR_SHIFT`, so block `i`
covers exactly sector `i`). -/
def cbtOneBlock : CbtMap :=
  { device_capacity := 1, blk_size_shift := 9, blk_count := 1,
    read_map := [0], write_map := [0], snap_number_active := 1,
    snap_number_previous := 0, generation_id := 0, is_corrupted := false }

/-- A two-block CBT map. -/
def cbtTwoBlocks : CbtMap :=
  { device_capacity := 2, blk_size_shift := 9, blk_count := 2,
    read_map := [0, 0], write_map := [0, 0], snap_number_active := 1,
    snap_number_previous := 0, generation_id := 0, is_corrupted := false }

/-- The created snapshot image of `_snapimage_create [false] 4096`. -/
def imageExample : SnapImage :=
  { capacity := 4096, logical_block_size := 512, physical_block_size := 512,
    minors := 1, first_minor := 0, no_part_scan := true,
    disk_name := SNAP_IMAGE_NAME ++ toString 0 }

/-- An environment for `snapshot_take` where image creation fails. -/
def envImageFail : TakeEnv :=
  { diffAreaOk := fun _ => true, errDiffArea := -12,
    takeOk := fun _ => true, errTake := -5,
    corruptedAfter := fun _ => false,
    imageOk := fun _ => false, errImage := -5 }

/-- An environment for `snapshot_take` where everything succeeds except
that the second tracker's take fails (step 4) and every diff area of
`envCorrupted` reports corrupted (step 7). -/
def envTakeFail : TakeEnv :=
  { diffAreaOk := fun _ => true, errDiffArea := -12,
    takeOk := fun i => i == 0, errTake := -5,
    corruptedAfter := fun _ => false,
    imageOk := fun _ => true, errImage := -5 }

/-- An environment for `snapshot_take` where the diff areas are found
corrupted after the take (step 7). -/
def envCorrupted : TakeEnv :=
  { diffAreaOk := fun _ => true, errDiffArea := -12,
    takeOk := fun _ => true, errTake := -5,
    corruptedAfter := fun _ => true,
    imageOk := fun _ => true, errImage := -5 }

/-- Two fresh trackers, as after `snapshot_create` on two devices. -/
def twoTrackers : List TrackerS :=
  [{ taken := false, has_diff_area := false },
   { taken := false, has_diff_area := false }]

/-! ## Theorems -/

/-- `cbt_map_switch` without overflow: previous := active, active
incremented, read-map := write-map. -/
theorem cbt_map_switch_eq_of_ne (m : CbtMap) (fresh : Nat)
    (h : m.snap_number_active + 1 ≠ 256) :
    cbt_map_switch m fresh =
      { m with read_map := m.write_map,
               snap_number_previous := m.snap_number_active,
               snap_number_active := m.snap_number_active + 1 } := by
  simp only [cbt_map_switch, big_buffer_memcpy]
  rw [if_neg h]

/-- `cbt_map_switch` at overflow: active resets to 1, the write-map is
zeroed and the fresh UUID is installed. -/
theorem cbt_map_switch_eq_of_eq (m : CbtMap) (fresh : Nat)
    (h : m.snap_number_active + 1 = 256) :
    cbt_map_switch m fresh =
      { m with read_map := m.write_map,
               snap_number_previous := m.snap_number_active,
               snap_number_active := 1,
               write_map := List.replicate m.write_map.length 0,
               generation_id := fresh } := by
  simp only [cbt_map_switch, big_buffer_memcpy, big_buffer_memset0]
  rw [if_pos h]

/-- C2: `cbt_map_switch` copies the write-map into the read-map, sets
`snap_number_previous` to the old `snap_number_active` and increments
`snap_number_active`; when the incremented value would be 256 it becomes 1
instead, the write-map is zeroed and a new generation UUID is drawn.  In
particular a single switch from `active = 255` yields `active = 1`,
`previous = 255`, an all-zero write-map and a changed `generation_id`. -/
theorem cbt_map_switch_spec (m : CbtMap) (fresh : Nat) :
    (cbt_map_switch m fresh).read_map = m.write_map ∧
    (cbt_map_switch m fresh).snap_number_previous = m.snap_number_active ∧
    (m.snap_number_active + 1 ≠ 256 →
      (cbt_map_switch m fresh).snap_number_active = m.snap_number_active + 1 ∧
      (cbt_map_switch m fresh).write_map = m.write_map ∧
      (cbt_map_switch m fresh).generation_id = m.generation_id) ∧
    (m.snap_number_active + 1 = 256 →
      (cbt_map_switch m fresh).snap_number_active = 1 ∧
      (cbt_map_switch m fresh).write_map
        = List.replicate m.write_map.length 0 ∧
      (cbt_map_switch m fresh).generation_id = fresh) ∧
    (m.snap_number_active = 255 → fresh ≠ m.generation_id →
      (cbt_map_switch m fresh).snap_number_active = 1 ∧
      (cbt_map_switch m fresh).snap_number_previous = 255 ∧
      (∀ v ∈ (cbt_map_switch m fresh).write_map, v = 0) ∧
      (cbt_map_switch m fresh).generation_id ≠ m.generation_id) := by
  by_cases h : m.snap_number_active + 1 = 256
  · rw [cbt_map_switch_eq_of_eq m fresh h]
    refine ⟨rfl, rfl, fun hne => absurd h hne, fun _ => ⟨rfl, rfl, rfl⟩,
      fun h255 hfresh => ⟨rfl, h255, ?_, hfresh⟩⟩
    intro v hv
    exact List.eq_of_mem_replicate hv
  · rw [cbt_map_switch_eq_of_ne m fresh h]
    exact ⟨rfl, rfl, fun _ => ⟨rfl, rfl, rfl⟩, fun hc => absurd hc h,
      fun h255 _ => absurd (by omega : m.snap_number_active + 1 = 256) h⟩

/-- Witness for C2: a concrete map with `active = 255`. -/
theorem cbt_map_switch_spec_witness :
    cbtOverflow.snap_number_active = 255 ∧
    (1 : Nat) ≠ cbtOverflow.generation_id ∧
    ((cbt_map_switch cbtOverflow 1).snap_number_active = 1 ∧
      (cbt_map_switch cbtOverflow 1).snap_number_previous = 255 ∧
      (∀ v ∈ (cbt_map_switch cbtOverflow 1).write_map, v = 0) ∧
      (cbt_map_switch cbtOverflow 1).generation_id
        ≠ cbtOverflow.generation_id) :=
  ⟨rfl, by decide,
    (cbt_map_switch_spec cbtOverflow 1).2.2.2.2 rfl (by decide)⟩

/-- C9: every snapshot image block device created by `_snapimage_create`
publishes the original device's logical capacity, 512-byte logical and
physical block sizes, exactly one partition slot with partition scanning
disabled, and the disk name `SNAP_IMAGE_NAME ++ minor` for the allocated
minor. -/
theorem snapimage_create_spec (used : List Bool) (cap : Nat)
    (img : SnapImage) (h : _snapimage_create used cap = some img) :
    img.capacity = cap ∧ img.logical_block_size = 512 ∧
    img.physical_block_size = 512 ∧ img.minors = 1 ∧
    img.no_part_scan = true ∧
    ∃ minor, find_free_minor used = some minor ∧
      img.first_minor = minor ∧
      img.disk_name = SNAP_IMAGE_NAME ++ toString minor := by
  unfold _snapimage_create at h
  cases hf : find_free_minor used with
  | none => rw [hf] at h; exact absurd h (by simp)
  | some minor =>
    rw [hf] at h
    cases h
    exact ⟨rfl, rfl, rfl, rfl, rfl, minor, rfl, rfl, rfl⟩

/-- Witness for C9: creating an image with an empty minors bitmap. -/
theorem snapimage_create_spec_witness :
    _snapimage_create [false] 4096 = some imageExample ∧
    (imageExample.capacity = 4096 ∧ imageExample.logical_block_size = 512 ∧
      imageExample.physical_block_size = 512 ∧ imageExample.minors = 1 ∧
      imageExample.no_part_scan = true ∧
      ∃ minor, find_free_minor [false] = some minor ∧
        imageExample.first_minor = minor ∧
        imageExample.disk_name = SNAP_IMAGE_NAME ++ toString minor) :=
  ⟨rfl, snapimage_create_spec [false] 4096 imageExample rfl⟩

/-- Generating events appends them in order at the tail of the queue. -/
theorem event_gen_all_eq (q evs : List Event) :
    event_gen_all q evs = q ++ evs := by
  induction evs generalizing q with
  | nil => simp [event_gen_all]
  | cons e es ih => simp [event_gen_all, event_gen, ih]

/-- Waiting `n` times on a queue of `n` events pops them in order. -/
theorem event_wait_n_all (evs : List Event) :
    event_wait_n evs evs.length = (evs.map Except.ok, []) := by
  induction evs with
  | nil => rfl
  | cons e es ih => simp [event_wait_n, event_wait, ih]

/-- C10: the per-snapshot event queue is FIFO: `event_gen` appends at the
tail, a successful `event_wait` removes and returns the oldest event, so
any sequence of generated events is delivered in generation order; an
elapsed timeout yields `-ENOENT` and an interrupted wait `-EINTR`. -/
theorem event_queue_fifo_spec :
    (∀ (q : List Event) (t : Nat) (c : Int) (d : List Nat),
      event_gen true q t c d = (0, q ++ [⟨t, c, d⟩])) ∧
    (∀ (e : Event) (rest : List Event) (sig : WaitSig),
      event_wait (e :: rest) sig = (.ok e, rest)) ∧
    (∀ evs : List Event,
      event_wait_n (event_gen_all [] evs) evs.length
        = (evs.map Except.ok, [])) ∧
    event_wait [] .timeout = (.error (-2), []) ∧
    event_wait [] .interrupted = (.error (-4), []) := by
  refine ⟨fun q t c d => rfl, fun e rest sig => rfl, fun evs => ?_, rfl, rfl⟩
  rw [event_gen_all_eq]
  simpa using event_wait_n_all evs

/-- C7: on a non-corrupted map with `offset + size ≤ blk_count`,
`cbt_map_read_to_user` copies out exactly the bytes of the read map at
`[offset, offset + size)` and returns the number of bytes transferred
(`size` on a full copy, the number actually copied on a partial copy);
once corrupted the call fails with `-EFAULT`. -/
theorem cbt_map_read_to_user_spec (m : CbtMap) (offset size copied : Nat)
    (hin : offset + size ≤ m.blk_count) (hcopied : copied ≤ size) :
    (m.is_corrupted = false →
      cbt_map_read_to_user m offset size copied
        = .ok (copied, ((m.read_map.drop offset).take size).take copied)) ∧
    (m.is_corrupted = false → copied = size →
      cbt_map_read_to_user m offset size copied
        = .ok (size, (m.read_map.drop offset).take size)) ∧
    (m.is_corrupted = true →
      cbt_map_read_to_user m offset size copied = .error (-14)) := by
  have hreal : min (m.blk_count - offset) size = size := by omega
  have hmc : min copied size = copied := by omega
  refine ⟨?_, ?_, ?_⟩
  · intro hcor
    simp only [cbt_map_read_to_user, big_buffer_copy_to_user, hcor,
      Bool.false_eq_true, if_false, hreal, hmc]
    split
    · simp only [Except.ok.injEq, Prod.mk.injEq, and_true]
      omega
    · simp only [Except.ok.injEq, Prod.mk.injEq, and_true]
      omega
  · intro hcor hfull
    subst hfull
    simp only [cbt_map_read_to_user, big_buffer_copy_to_user, hcor,
      Bool.false_eq_true, if_false, hreal, hmc]
    simp [List.take_take]
  · intro hcor
    simp [cbt_map_read_to_user, hcor]

/-- One walk of the `_cbt_map_set` loop over in-range blocks: the loop
succeeds, preserves the map length, and upgrades exactly the visited
cells to the maximum of their old value and the snap number. -/
theorem cbt_map_set_blocks_ok (blkCount snap : Nat) :
    ∀ (n a : Nat) (map : List Nat), map.length = blkCount →
      a + n ≤ blkCount →
      (cbt_map_set_blocks blkCount snap map (List.range' a n)).1 = 0 ∧
      (cbt_map_set_blocks blkCount snap map (List.range' a n)).2.length
        = blkCount ∧
      ∀ i, (cbt_map_set_blocks blkCount snap map (List.range' a n)).2[i]?
        = if a ≤ i ∧ i < a + n then (map[i]?).map (fun v => max v snap)
          else map[i]? := by
  intro n
  induction n with
  | zero =>
    intro a map hlen _
    refine ⟨rfl, hlen, fun i => ?_⟩
    rw [if_neg (by omega)]
    rfl
  | succ n ih =>
    intro a map hlen hbound
    have ha : a < blkCount := by omega
    have ha2 : a < map.length := by omega
    rw [List.range'_succ]
    simp only [cbt_map_set_blocks, big_buffer_byte_get, big_buffer_byte_set,
      if_neg (by omega : ¬a ≥ blkCount), List.getElem?_eq_getElem ha2,
      if_pos ha2]
    by_cases hv : map[a] < snap
    · rw [if_pos hv]
      have hlen2 : (map.set a snap).length = blkCount := by
        rw [List.length_set]; exact hlen
      obtain ⟨h0, hl, hmap⟩ := ih (a + 1) (map.set a snap) hlen2 (by omega)
      refine ⟨h0, hl, fun i => ?_⟩
      rw [hmap i]
      by_cases hia : i = a
      · subst hia
        rw [if_neg (by omega), if_pos (by omega),
          List.getElem?_set_eq (by omega), List.getElem?_eq_getElem ha2]
        simp [Nat.max_eq_right (Nat.le_of_lt hv)]
      · rw [List.getElem?_set_ne (by omega)]
        by_cases hi : a ≤ i ∧ i < a + (n + 1)
        · rw [if_pos hi, if_pos (by omega)]
        · rw [if_neg hi, if_neg (by omega)]
    · rw [if_neg hv]
      obtain ⟨h0, hl, hmap⟩ := ih (a + 1) map hlen (by omega)
      refine ⟨h0, hl, fun i => ?_⟩
      rw [hmap i]
      by_cases hia : i = a
      · subst hia
        rw [if_neg (by omega), if_pos (by omega),
          List.getElem?_eq_getElem ha2]
        simp [Nat.max_eq_left (Nat.le_of_not_lt hv)]
      · by_cases hi : a ≤ i ∧ i < a + (n + 1)
        · rw [if_pos (by omega), if_pos hi]
        · rw [if_neg (by omega), if_neg hi]

/-- One walk of the `_cbt_map_set` loop over a range that reaches past the
map: the loop breaks with `-EINVAL`, after upgrading the in-range cells it
visited before the break. -/
theorem cbt_map_set_blocks_fail (blkCount snap : Nat) :
    ∀ (n a : Nat) (map : List Nat), map.length = blkCount →
      1 ≤ n → blkCount < a + n →
      (cbt_map_set_blocks blkCount snap map (List.range' a n)).1 = -22 ∧
      (cbt_map_set_blocks blkCount snap map (List.range' a n)).2.length
        = blkCount ∧
      ∀ i, (cbt_map_set_blocks blkCount snap map (List.range' a n)).2[i]?
        = if a ≤ i ∧ i < blkCount
          then (map[i]?).map (fun v => max v snap) else map[i]? := by
  intro n
  induction n with
  | zero => intro a map _ h1 _; omega
  | succ n ih =>
    intro a map hlen _ hbound
    rw [List.range'_succ]
    by_cases ha : a ≥ blkCount
    · have hstep : cbt_map_set_blocks blkCount snap map
          (a :: List.range' (a + 1) n) = (-22, map) := by
        simp [cbt_map_set_blocks, ha]
      rw [hstep]
      refine ⟨rfl, hlen, fun i => ?_⟩
      rw [if_neg (by omega)]
    · have ha2 : a < map.length := by omega
      have hn : 1 ≤ n := by omega
      simp only [cbt_map_set_blocks, big_buffer_byte_get,
        big_buffer_byte_set, if_neg ha, List.getElem?_eq_getElem ha2,
        if_pos ha2]
      by_cases hv : map[a] < snap
      · rw [if_pos hv]
        have hlen2 : (map.set a snap).length = blkCount := by
          rw [List.length_set]; exact hlen
        obtain ⟨h0, hl, hmap⟩ := ih (a + 1) (map.set a snap) hlen2 hn
          (by omega)
        refine ⟨h0, hl, fun i => ?_⟩
        rw [hmap i]
        by_cases hia : i = a
        · subst hia
          rw [if_neg (by omega), if_pos (by omega),
            List.getElem?_set_eq (by omega), List.getElem?_eq_getElem ha2]
          simp [Nat.max_eq_right (Nat.le_of_lt hv)]
        · rw [List.getElem?_set_ne (by omega)]
          by_cases hi : a ≤ i ∧ i < blkCount
          · rw [if_pos hi, if_pos (by omega)]
          · rw [if_neg hi, if_neg (by omega)]
      · rw [if_neg hv]
        obtain ⟨h0, hl, hmap⟩ := ih (a + 1) map hlen hn (by omega)
        refine ⟨h0, hl, fun i => ?_⟩
        rw [hmap i]
        by_cases hia : i = a
        · subst hia
          rw [if_neg (by omega), if_pos (by omega),
            List.getElem?_eq_getElem ha2]
          simp [Nat.max_eq_left (Nat.le_of_not_lt hv)]
        · by_cases hi : a ≤ i ∧ i < blkCount
          · rw [if_pos (by omega), if_pos hi]
          · rw [if_neg (by omega), if_neg hi]

/-- A block of `2^s` sectors overlaps the sector range iff its index lies
between the first and last block indices computed by `_cbt_map_set`. -/
theorem blockOverlaps_iff (m : CbtMap) (start cnt i : Nat) (hcnt : 1 ≤ cnt) :
    blockOverlaps (m.blk_size_shift - SECTOR_SHIFT) start cnt i ↔
      (cbt_block_first m start ≤ i ∧ i ≤ cbt_block_last m start cnt) := by
  unfold cbt_block_first cbt_block_last
  rw [Nat.shiftRight_eq_div_pow, Nat.shiftRight_eq_div_pow]
  set s := m.blk_size_shift - SECTOR_SHIFT with hs
  have hpow : 0 < 2 ^ s := Nat.pos_pow_of_pos s (by omega)
  have h1 : (start / 2 ^ s ≤ i) ↔ start < (i + 1) * 2 ^ s := by
    rw [← Nat.lt_succ_iff, Nat.div_lt_iff_lt_mul hpow]
  have h2 : (i ≤ (start + cnt - 1) / 2 ^ s) ↔ i * 2 ^ s < start + cnt := by
    rw [Nat.le_div_iff_mul_le hpow]
    omega
  unfold blockOverlaps
  constructor
  · rintro ⟨ha, hb⟩
    exact ⟨h1.mpr hb, h2.mpr ha⟩
  · rintro ⟨ha, hb⟩
    exact ⟨h2.mp hb, h1.mp ha⟩

/-- `_cbt_map_set` on an in-range sector range succeeds and upgrades
exactly the cells of the overlapping blocks. -/
theorem _cbt_map_set_ok (m : CbtMap) (start cnt snap : Nat) (map : List Nat)
    (hlen : map.length = m.blk_count) (hcnt : 1 ≤ cnt)
    (hin : cbt_block_last m start cnt < m.blk_count) :
    (_cbt_map_set m start cnt snap map).1 = 0 ∧
    (_cbt_map_set m start cnt snap map).2.length = m.blk_count ∧
    ∀ i, (_cbt_map_set m start cnt snap map).2[i]?
      = if blockOverlaps (m.blk_size_shift - SECTOR_SHIFT) start cnt i
        then (map[i]?).map (fun v => max v snap) else map[i]? := by
  have hfl : cbt_block_first m start ≤ cbt_block_last m start cnt := by
    unfold cbt_block_first cbt_block_last
    rw [Nat.shiftRight_eq_div_pow, Nat.shiftRight_eq_div_pow]
    exact Nat.div_le_div_right (by omega)
  have hsum : cbt_block_first m start
      + (cbt_block_last m start cnt + 1 - cbt_block_first m start)
      = cbt_block_last m start cnt + 1 := by omega
  obtain ⟨h0, hl, hmap⟩ := cbt_map_set_blocks_ok m.blk_count snap
    (cbt_block_last m start cnt + 1 - cbt_block_first m start)
    (cbt_block_first m start) map hlen (by omega)
  refine ⟨h0, hl, fun i => ?_⟩
  rw [_cbt_map_set] at *
  rw [hmap i]
  by_cases hov : blockOverlaps (m.blk_size_shift - SECTOR_SHIFT) start cnt i
  · have hb := (blockOverlaps_iff m start cnt i hcnt).mp hov
    rw [if_pos (by omega), if_pos hov]
  · have hb : ¬(cbt_block_first m start ≤ i
        ∧ i ≤ cbt_block_last m start cnt) :=
      fun h => hov ((blockOverlaps_iff m start cnt i hcnt).mpr h)
    rw [if_neg (by omega), if_neg hov]

/-- `_cbt_map_set` on a sector range reaching past `blk_count` fails with
`-EINVAL`, after upgrading the cells of the in-range overlapping blocks. -/
theorem _cbt_map_set_fail (m : CbtMap) (start cnt snap : Nat)
    (map : List Nat)
    (hlen : map.length = m.blk_count) (hcnt : 1 ≤ cnt)
    (hout : m.blk_count ≤ cbt_block_last m start cnt) :
    (_cbt_map_set m start cnt snap map).1 = -22 ∧
    (_cbt_map_set m start cnt snap map).2.length = m.blk_count ∧
    ∀ i, (_cbt_map_set m start cnt snap map).2[i]?
      = if cbt_block_first m start ≤ i ∧ i < m.blk_count
        then (map[i]?).map (fun v => max v snap) else map[i]? := by
  have hfl : cbt_block_first m start ≤ cbt_block_last m start cnt := by
    unfold cbt_block_first cbt_block_last
    rw [Nat.shiftRight_eq_div_pow, Nat.shiftRight_eq_div_pow]
    exact Nat.div_le_div_right (by omega)
  obtain ⟨h0, hl, hmap⟩ := cbt_map_set_blocks_fail m.blk_count snap
    (cbt_block_last m start cnt + 1 - cbt_block_first m start)
    (cbt_block_first m start) map hlen (by omega) (by omega)
  exact ⟨h0, hl, hmap⟩

/-- C3: on a non-corrupted map, for an in-range sector range and every
block index `i`: after `cbt_map_set(start, cnt)` the write-map cell of
every overlapping block is the maximum of its old value and the active
snap number and every other cell is unchanged; `cbt_map_set_both`
additionally upgrades the read-map cells of overlapping blocks with the
previous snap number under the same monotonic rule, leaving
non-overlapping cells unchanged. -/
theorem cbt_map_set_spec (m : CbtMap) (start cnt : Nat)
    (hcor : m.is_corrupted = false)
    (hw : m.write_map.length = m.blk_count)
    (hr : m.read_map.length = m.blk_count)
    (hcnt : 1 ≤ cnt)
    (hin : cbt_block_last m start cnt < m.blk_count)
    (hact : m.snap_number_active < 256)
    (hprev : m.snap_number_previous < 256) :
    ((cbt_map_set m start cnt).1 = 0 ∧
      (cbt_map_set m start cnt).2.is_corrupted = false ∧
      (cbt_map_set m start cnt).2.read_map = m.read_map ∧
      ∀ i, (cbt_map_set m start cnt).2.write_map[i]?
        = if blockOverlaps (m.blk_size_shift - SECTOR_SHIFT) start cnt i
          then (m.write_map[i]?).map (fun v => max v m.snap_number_active)
          else m.write_map[i]?) ∧
    ((cbt_map_set_both m start cnt).1 = 0 ∧
      (∀ i, (cbt_map_set_both m start cnt).2.write_map[i]?
        = if blockOverlaps (m.blk_size_shift - SECTOR_SHIFT) start cnt i
          then (m.write_map[i]?).map (fun v => max v m.snap_number_active)
          else m.write_map[i]?) ∧
      (∀ i, (cbt_map_set_both m start cnt).2.read_map[i]?
        = if blockOverlaps (m.blk_size_shift - SECTOR_SHIFT) start cnt i
          then (m.read_map[i]?).map
            (fun v => max v m.snap_number_previous)
          else m.read_map[i]?)) := by
  have hact2 : m.snap_number_active % 256 = m.snap_number_active :=
    Nat.mod_eq_of_lt hact
  have hprev2 : m.snap_number_previous % 256 = m.snap_number_previous :=
    Nat.mod_eq_of_lt hprev
  obtain ⟨hw0, _, hwmap⟩ := _cbt_map_set_ok m start cnt
    m.snap_number_active m.write_map hw hcnt hin
  obtain ⟨hr0, _, hrmap⟩ := _cbt_map_set_ok m start cnt
    m.snap_number_previous m.read_map hr hcnt hin
  have hargw : _cbt_map_set m start cnt (m.snap_number_active % 256)
      m.write_map
      = _cbt_map_set m start cnt m.snap_number_active m.write_map := by
    rw [hact2]
  have hargr : _cbt_map_set m start cnt (m.snap_number_previous % 256)
      m.read_map
      = _cbt_map_set m start cnt m.snap_number_previous m.read_map := by
    rw [hprev2]
  have hset : cbt_map_set m start cnt
      = (0, { m with write_map := (_cbt_map_set m start cnt
          m.snap_number_active m.write_map).2 }) := by
    unfold cbt_map_set
    rw [if_neg (by simp [hcor])]
    simp only [hargw, hw0, ne_eq, not_true_eq_false, ite_false,
      not_false_eq_true, if_neg]
  have hboth : cbt_map_set_both m start cnt
      = (0, { m with
          write_map := (_cbt_map_set m start cnt
            m.snap_number_active m.write_map).2,
          read_map := (_cbt_map_set m start cnt
            m.snap_number_previous m.read_map).2 }) := by
    unfold cbt_map_set_both
    rw [if_neg (by simp [hcor])]
    simp only [hargw, hargr, hw0, if_pos, hr0]
  rw [hset, hboth]
  exact ⟨⟨rfl, hcor, rfl, hwmap⟩, ⟨rfl, hwmap, hrmap⟩⟩

/-- Witness for C3: marking sector 0 of a two-block map. -/
theorem cbt_map_set_spec_witness :
    (cbtTwoBlocks.is_corrupted = false ∧
      cbtTwoBlocks.write_map.length = cbtTwoBlocks.blk_count ∧
      cbtTwoBlocks.read_map.length = cbtTwoBlocks.blk_count ∧
      1 ≤ 1 ∧ cbt_block_last cbtTwoBlocks 0 1 < cbtTwoBlocks.blk_count ∧
      cbtTwoBlocks.snap_number_active < 256 ∧
      cbtTwoBlocks.snap_number_previous < 256) ∧
    ((cbt_map_set cbtTwoBlocks 0 1).1 = 0 ∧
      (cbt_map_set cbtTwoBlocks 0 1).2.is_corrupted = false ∧
      (cbt_map_set cbtTwoBlocks 0 1).2.read_map = cbtTwoBlocks.read_map ∧
      ∀ i, (cbt_map_set cbtTwoBlocks 0 1).2.write_map[i]?
        = if blockOverlaps (cbtTwoBlocks.blk_size_shift - SECTOR_SHIFT)
            0 1 i
          then (cbtTwoBlocks.write_map[i]?).map
            (fun v => max v cbtTwoBlocks.snap_number_active)
          else cbtTwoBlocks.write_map[i]?) ∧
    ((cbt_map_set_both cbtTwoBlocks 0 1).1 = 0 ∧
      (∀ i, (cbt_map_set_both cbtTwoBlocks 0 1).2.write_map[i]?
        = if blockOverlaps (cbtTwoBlocks.blk_size_shift - SECTOR_SHIFT)
            0 1 i
          then (cbtTwoBlocks.write_map[i]?).map
            (fun v => max v cbtTwoBlocks.snap_number_active)
          else cbtTwoBlocks.write_map[i]?) ∧
      (∀ i, (cbt_map_set_both cbtTwoBlocks 0 1).2.read_map[i]?
        = if blockOverlaps (cbtTwoBlocks.blk_size_shift - SECTOR_SHIFT)
            0 1 i
          then (cbtTwoBlocks.read_map[i]?).map
            (fun v => max v cbtTwoBlocks.snap_number_previous)
          else cbtTwoBlocks.read_map[i]?)) := by
  refine ⟨by decide, ?_, ?_⟩
  · exact (cbt_map_set_spec cbtTwoBlocks 0 1 (by decide) (by decide)
      (by decide) (by decide) (by decide) (by decide) (by decide)).1
  · exact (cbt_map_set_spec cbtTwoBlocks 0 1 (by decide) (by decide)
      (by decide) (by decide) (by decide) (by decide) (by decide)).2

/-- C4 counterexample: on a one-block map, `cbt_map_set_both` over a
range reaching block index 1 (`≥ blk_count`) fails, yet the corrupted flag
is NOT set — refuting the claim that an out-of-range `cbt_map_set_both`
sets the corrupted flag. -/
theorem cbt_map_set_both_no_latch_cex :
    cbtOneBlock.blk_count ≤ cbt_block_last cbtOneBlock 0 2 ∧
    cbtOneBlock.is_corrupted = false ∧
    (cbt_map_set_both cbtOneBlock 0 2).1 ≠ 0 ∧
    (cbt_map_set_both cbtOneBlock 0 2).2.is_corrupted = false := by
  decide

/-- C4 (amended): an out-of-range `cbt_map_set` fails with `-EINVAL` and
sets the corrupted flag; an out-of-range `cbt_map_set_both` fails but
leaves the corrupted flag clear; once the flag is set, both calls fail
with `-EINVAL` without modifying either map. -/
theorem cbt_map_corruption_spec (m : CbtMap) (start cnt : Nat)
    (hcor : m.is_corrupted = false)
    (hw : m.write_map.length = m.blk_count)
    (hcnt : 1 ≤ cnt)
    (hout : m.blk_count ≤ cbt_block_last m start cnt) :
    ((cbt_map_set m start cnt).1 = -22 ∧
      (cbt_map_set m start cnt).2.is_corrupted = true) ∧
    ((cbt_map_set_both m start cnt).1 = -22 ∧
      (cbt_map_set_both m start cnt).2.is_corrupted = false) ∧
    (∀ m' : CbtMap, m'.is_corrupted = true →
      cbt_map_set m' start cnt = (-22, m') ∧
      cbt_map_set_both m' start cnt = (-22, m')) := by
  obtain ⟨hw0, _, _⟩ := _cbt_map_set_fail m start cnt
    (m.snap_number_active % 256) m.write_map hw hcnt hout
  refine ⟨?_, ?_, fun m' hcor' => ?_⟩
  · unfold cbt_map_set
    rw [if_neg (by simp [hcor])]
    simp only [hw0]
    rw [if_pos (by decide)]
    exact ⟨rfl, rfl⟩
  · unfold cbt_map_set_both
    rw [if_neg (by simp [hcor])]
    simp only [hw0]
    rw [if_neg (by decide)]
    exact ⟨rfl, hcor⟩
  · constructor
    · unfold cbt_map_set
      rw [if_pos (by simp [hcor'])]
    · unfold cbt_map_set_both
      rw [if_pos (by simp [hcor'])]

/-- Witness for C4 (amended): the one-block map with an out-of-range
range. -/
theorem cbt_map_corruption_spec_witness :
    (cbtOneBlock.is_corrupted = false ∧
      cbtOneBlock.write_map.length = cbtOneBlock.blk_count ∧
      1 ≤ 2 ∧ cbtOneBlock.blk_count ≤ cbt_block_last cbtOneBlock 0 2) ∧
    (((cbt_map_set cbtOneBlock 0 2).1 = -22 ∧
        (cbt_map_set cbtOneBlock 0 2).2.is_corrupted = true) ∧
      ((cbt_map_set_both cbtOneBlock 0 2).1 = -22 ∧
        (cbt_map_set_both cbtOneBlock 0 2).2.is_corrupted = false) ∧
      (∀ m' : CbtMap, m'.is_corrupted = true →
        cbt_map_set m' 0 2 = (-22, m') ∧
        cbt_map_set_both m' 0 2 = (-22, m'))) :=
  ⟨by decide,
    cbt_map_corruption_spec cbtOneBlock 0 2 (by decide) (by decide)
      (by decide) (by decide)⟩

/-- C8 counterexample: on a two-block non-corrupted map, `cbt_map_set`
over sectors `[1, 3)` (blocks 1 and 2, the latter out of range) fails,
yet it has modified the write-map cell of block 1 and latched the
corrupted flag — refuting "fails with no state change". -/
theorem cbt_map_invalid_cex :
    (cbt_map_set cbtTwoBlocks 1 2).1 ≠ 0 ∧
    cbtTwoBlocks.write_map = [0, 0] ∧
    (cbt_map_set cbtTwoBlocks 1 2).2.write_map = [0, 1] ∧
    (cbt_map_set cbtTwoBlocks 1 2).2.is_corrupted = true ∧
    cbtTwoBlocks.is_corrupted = false := by
  decide

/-- C8 (amended): an out-of-range `cbt_map_set` fails with `-EINVAL`, but
the failing call upgrades the write-map cells of the in-range blocks it
visited before the break and latches the corrupted flag; a corrupted map
is rejected unmodified; `cbt_map_mark_dirty_blocks` stops at the first
failing range, leaving the effect of that partial failure in place. -/
theorem cbt_map_invalid_spec (m : CbtMap) (start cnt : Nat)
    (hcor : m.is_corrupted = false)
    (hw : m.write_map.length = m.blk_count)
    (hcnt : 1 ≤ cnt)
    (hact : m.snap_number_active < 256)
    (hout : m.blk_count ≤ cbt_block_last m start cnt) :
    ((cbt_map_set m start cnt).1 = -22 ∧
      (cbt_map_set m start cnt).2.is_corrupted = true ∧
      ∀ i, (cbt_map_set m start cnt).2.write_map[i]?
        = if cbt_block_first m start ≤ i ∧ i < m.blk_count
          then (m.write_map[i]?).map (fun v => max v m.snap_number_active)
          else m.write_map[i]?) ∧
    (∀ m' : CbtMap, m'.is_corrupted = true →
      cbt_map_set m' start cnt = (-22, m')) ∧
    (∀ (r : BlockRange) (rest : List BlockRange),
      (cbt_map_set_both m r.sector_offset r.sector_count).1 ≠ 0 →
      cbt_map_mark_dirty_blocks m (r :: rest)
        = cbt_map_set_both m r.sector_offset r.sector_count) := by
  have hact2 : m.snap_number_active % 256 = m.snap_number_active :=
    Nat.mod_eq_of_lt hact
  obtain ⟨hw0, _, hwmap⟩ := _cbt_map_set_fail m start cnt
    m.snap_number_active m.write_map hw hcnt hout
  have hargw : _cbt_map_set m start cnt (m.snap_number_active % 256)
      m.write_map
      = _cbt_map_set m start cnt m.snap_number_active m.write_map := by
    rw [hact2]
  refine ⟨?_, fun m' hcor' => ?_, fun r rest hfail => ?_⟩
  · have hset : cbt_map_set m start cnt
        = (-22, { m with write_map := (_cbt_map_set m start cnt
            m.snap_number_active m.write_map).2, is_corrupted := true }) := by
      unfold cbt_map_set
      rw [if_neg (by simp [hcor])]
      simp only [hargw, hw0]
      rw [if_pos (by decide)]
    rw [hset]
    exact ⟨rfl, rfl, hwmap⟩
  · unfold cbt_map_set
    rw [if_pos (by simp [hcor'])]
  · unfold cbt_map_mark_dirty_blocks
    rw [if_pos hfail]

/-- Witness for C8 (amended): the two-block map with range `[1, 3)`. -/
theorem cbt_map_invalid_spec_witness :
    (cbtTwoBlocks.is_corrupted = false ∧
      cbtTwoBlocks.write_map.length = cbtTwoBlocks.blk_count ∧
      1 ≤ 2 ∧ cbtTwoBlocks.snap_number_active < 256 ∧
      cbtTwoBlocks.blk_count ≤ cbt_block_last cbtTwoBlocks 1 2) ∧
    (((cbt_map_set cbtTwoBlocks 1 2).1 = -22 ∧
        (cbt_map_set cbtTwoBlocks 1 2).2.is_corrupted = true ∧
        ∀ i, (cbt_map_set cbtTwoBlocks 1 2).2.write_map[i]?
          = if cbt_block_first cbtTwoBlocks 1 ≤ i
              ∧ i < cbtTwoBlocks.blk_count
            then (cbtTwoBlocks.write_map[i]?).map
              (fun v => max v cbtTwoBlocks.snap_number_active)
            else cbtTwoBlocks.write_map[i]?) ∧
      (∀ m' : CbtMap, m'.is_corrupted = true →
        cbt_map_set m' 1 2 = (-22, m')) ∧
      (∀ (r : BlockRange) (rest : List BlockRange),
        (cbt_map_set_both cbtTwoBlocks r.sector_offset r.sector_count).1
          ≠ 0 →
        cbt_map_mark_dirty_blocks cbtTwoBlocks (r :: rest)
          = cbt_map_set_both cbtTwoBlocks r.sector_offset r.sector_count)) :=
  ⟨by decide,
    cbt_map_invalid_spec cbtTwoBlocks 1 2 (by decide) (by decide)
      (by decide) (by decide) (by decide)⟩

/-- `chunk_store_failed` keeps the LOADING and STORING bits, sets FAILED,
and latches diff-area corruption with the first error. -/
theorem chunk_store_failed_flags (c : Chunk) (d : DiffArea) (err : Int) :
    (chunk_store_failed c d err).1.st_loading = c.st_loading ∧
    (chunk_store_failed c d err).1.st_storing = c.st_storing ∧
    (chunk_store_failed c d err).1.st_failed = true ∧
    (chunk_store_failed c d err).2.corrupted = true ∧
    (d.corrupted = false →
      (chunk_store_failed c d err).2.corrupted_err = err) := by
  unfold chunk_store_failed diff_area_set_corrupted
  by_cases hd : d.corrupted
  · rw [if_pos hd]
    exact ⟨rfl, rfl, rfl, hd, fun h => absurd hd (by simp [h])⟩
  · rw [if_neg hd]
    exact ⟨rfl, rfl, rfl, rfl, fun _ => rfl⟩

/-- The chunk produced by `chunk_schedule_storing` never has LOADING
set when the input chunk does not. -/
theorem chunk_schedule_storing_not_loading (c : Chunk) (d : DiffArea)
    (storeRes : Except Int Unit) (dmIoRet : Int)
    (h : c.st_loading = false) :
    (chunk_schedule_storing c d storeRes dmIoRet).1.st_loading = false := by
  unfold chunk_schedule_storing chunk_async_store_diff
  split
  · exact h
  · split
    · split
      · rename_i x e
        exact ((chunk_store_failed_flags c d e).1).trans h
      · dsimp only
        split
        · simp [chunk_store_failed, h]
        · simp [h]
    · dsimp only
      split
      · simp [chunk_store_failed, h]
      · simp [h]

/-- C5: the asynchronous load- and store-completion handlers preserve the
chunk-state invariant that LOADING and STORING are never simultaneously
set; a completion observing an error, and a failure to obtain a
diff-storage reservation, set FAILED and mark the owning diff area
corrupted with that error; a successful store completion clears STORING,
sets STORE_READY and enqueues the chunk into the cache. -/
theorem chunk_handlers_spec (c : Chunk) (d : DiffArea)
    (storeRes : Except Int Unit) (dmIoRet : Int)
    (hcache : c.st_in_cache = true → c.number ∈ d.caching_chunks) :
    (¬(c.st_loading = true ∧ c.st_storing = true) →
      ¬((chunk_notify_load c d storeRes dmIoRet).1.st_loading = true
        ∧ (chunk_notify_load c d storeRes dmIoRet).1.st_storing = true) ∧
      ¬((chunk_notify_store c d).1.st_loading = true
        ∧ (chunk_notify_store c d).1.st_storing = true)) ∧
    (c.error ≠ 0 →
      (chunk_notify_load c d storeRes dmIoRet).1.st_failed = true ∧
      (chunk_notify_load c d storeRes dmIoRet).2.corrupted = true ∧
      (d.corrupted = false →
        (chunk_notify_load c d storeRes dmIoRet).2.corrupted_err
          = c.error) ∧
      (chunk_notify_store c d).1.st_failed = true ∧
      (chunk_notify_store c d).2.corrupted = true ∧
      (d.corrupted = false →
        (chunk_notify_store c d).2.corrupted_err = c.error)) ∧
    (∀ e, c.error = 0 → c.st_failed = false → c.st_loading = true →
      d.in_memory = false → c.has_diff_store = false →
      storeRes = .error e →
      (chunk_notify_load c d storeRes dmIoRet).1.st_failed = true ∧
      (chunk_notify_load c d storeRes dmIoRet).2.corrupted = true ∧
      (d.corrupted = false →
        (chunk_notify_load c d storeRes dmIoRet).2.corrupted_err = e)) ∧
    (c.error = 0 → c.st_failed = false → c.st_storing = true →
      (chunk_notify_store c d).1.st_storing = false ∧
      (chunk_notify_store c d).1.st_store_ready = true ∧
      (chunk_notify_store c d).1.st_in_cache = true ∧
      c.number ∈ (chunk_notify_store c d).2.caching_chunks) := by
  refine ⟨?_, ?_, ?_, ?_⟩
  · intro hms
    constructor
    · unfold chunk_notify_load
      split
      · next herr =>
        intro hc
        exact hms ⟨((chunk_store_failed_flags c d c.error).1).symm.trans
            hc.1,
          ((chunk_store_failed_flags c d c.error).2.1).symm.trans hc.2⟩
      · split
        · exact hms
        · split
          · next hld =>
            intro hc
            have := chunk_schedule_storing_not_loading
              { c with st_loading := false, st_buffer_ready := true } d
              storeRes dmIoRet rfl
            rw [hc.1] at this
            exact absurd this (by simp)
          · exact hms
    · unfold chunk_notify_store
      split
      · next herr =>
        intro hc
        exact hms ⟨((chunk_store_failed_flags c d c.error).1).symm.trans
            hc.1,
          ((chunk_store_failed_flags c d c.error).2.1).symm.trans hc.2⟩
      · split
        · exact hms
        · split
          · next hst =>
            unfold chunk_schedule_caching
            split
            · intro hc
              exact absurd hc.2 (by simp)
            · intro hc
              exact absurd hc.2 (by simp)
          · exact hms
  · intro herr
    have hl := chunk_store_failed_flags c d c.error
    have hload : chunk_notify_load c d storeRes dmIoRet
        = chunk_store_failed c d c.error := by
      unfold chunk_notify_load
      rw [if_pos herr]
    have hstore : chunk_notify_store c d = chunk_store_failed c d c.error := by
      unfold chunk_notify_store
      rw [if_pos herr]
    rw [hload, hstore]
    exact ⟨hl.2.2.1, hl.2.2.2.1, fun h => hl.2.2.2.2 h, hl.2.2.1,
      hl.2.2.2.1, fun h => hl.2.2.2.2 h⟩
  · intro e herr hfail hload hmem hstore hres
    have hload2 : chunk_notify_load c d storeRes dmIoRet
        = chunk_store_failed
            { c with st_loading := false, st_buffer_ready := true } d e := by
      unfold chunk_notify_load
      rw [if_neg (by simp [herr]), if_neg (by simp [hfail]), if_pos hload]
      unfold chunk_schedule_storing
      rw [if_neg (by simp [hmem]), if_pos (by simp [hstore]), hres]
    rw [hload2]
    have hl := chunk_store_failed_flags
      { c with st_loading := false, st_buffer_ready := true } d e
    exact ⟨hl.2.2.1, hl.2.2.2.1, fun h => hl.2.2.2.2 h⟩
  · intro herr hfail hstoring
    have hstore2 : chunk_notify_store c d
        = chunk_schedule_caching
            { c with st_storing := false, st_store_ready := true } d := by
      unfold chunk_notify_store
      rw [if_neg (by simp [herr]), if_neg (by simp [hfail]),
        if_pos hstoring]
    rw [hstore2]
    unfold chunk_schedule_caching
    by_cases hic : c.st_in_cache = true
    · rw [if_neg (by simp [hic])]
      exact ⟨rfl, rfl, hic, hcache hic⟩
    · rw [if_pos (by simp at hic; simp [hic])]
      refine ⟨rfl, rfl, rfl, ?_⟩
      simp

/-- Witness for C5: a storing chunk whose store completes cleanly. -/
theorem chunk_handlers_spec_witness :
    (((⟨7, false, true, true, false, false, false, 0, true, true⟩ :
        Chunk).st_in_cache = true →
      (7 : Nat) ∈ (⟨false, 0, false, []⟩ : DiffArea).caching_chunks) ∧
      (⟨7, false, true, true, false, false, false, 0, true, true⟩ :
        Chunk).error = 0 ∧
      (⟨7, false, true, true, false, false, false, 0, true, true⟩ :
        Chunk).st_failed = false ∧
      (⟨7, false, true, true, false, false, false, 0, true, true⟩ :
        Chunk).st_storing = true) ∧
    ((chunk_notify_store
        ⟨7, false, true, true, false, false, false, 0, true, true⟩
        ⟨false, 0, false, []⟩).1.st_storing = false ∧
      (chunk_notify_store
        ⟨7, false, true, true, false, false, false, 0, true, true⟩
        ⟨false, 0, false, []⟩).1.st_store_ready = true ∧
      (chunk_notify_store
        ⟨7, false, true, true, false, false, false, 0, true, true⟩
        ⟨false, 0, false, []⟩).1.st_in_cache = true ∧
      (7 : Nat) ∈ (chunk_notify_store
        ⟨7, false, true, true, false, false, false, 0, true, true⟩
        ⟨false, 0, false, []⟩).2.caching_chunks) :=
  ⟨⟨by decide, rfl, rfl, rfl⟩,
    (chunk_handlers_spec
      ⟨7, false, true, true, false, false, false, 0, true, true⟩
      ⟨false, 0, false, []⟩ (.ok ()) 0 (by decide)).2.2.2 rfl rfl rfl⟩

/-- `count_by_shift` is the ceiling of capacity over the block size. -/
theorem count_by_shift_eq (capacity shift : Nat) :
    count_by_shift capacity shift
      = (capacity + 2 ^ (shift - SECTOR_SHIFT) - 1)
          / 2 ^ (shift - SECTOR_SHIFT) := by
  unfold count_by_shift
  exact Nat.mul_div_cancel _ (Nat.pos_pow_of_pos _ (by omega))

/-- Once the block size reaches the capacity, the block count is at
most 1. -/
theorem count_by_shift_le_one (capacity shift : Nat)
    (h : capacity ≤ 2 ^ (shift - SECTOR_SHIFT)) :
    count_by_shift capacity shift ≤ 1 := by
  rw [count_by_shift_eq]
  have hpos : 0 < 2 ^ (shift - SECTOR_SHIFT) :=
    Nat.pos_pow_of_pos _ (by omega)
  have h2 : (capacity + 2 ^ (shift - SECTOR_SHIFT) - 1)
      / 2 ^ (shift - SECTOR_SHIFT) < 2 :=
    (Nat.div_lt_iff_lt_mul hpos).mpr (by omega)
  omega

/-- The shift-doubling loop terminates within the fuel and returns the
first shift of the doubling sequence whose block count fits the cap. -/
theorem calculate_block_size_loop_spec (capacity maxCount : Nat)
    (hmax : 1 ≤ maxCount) :
    ∀ (fuel shift : Nat), SECTOR_SHIFT ≤ shift →
      capacity ≤ 2 ^ (shift - SECTOR_SHIFT + fuel) →
      ∃ s, calculate_block_size_loop capacity maxCount (fuel + 1) shift
          = some s ∧
        count_by_shift capacity s ≤ maxCount ∧
        ∃ k, s = shift * 2 ^ k ∧
          ∀ j < k, maxCount < count_by_shift capacity (shift * 2 ^ j) := by
  intro fuel
  induction fuel with
  | zero =>
    intro shift hs hcap
    have hcount : count_by_shift capacity shift ≤ maxCount := by
      have := count_by_shift_le_one capacity shift (by simpa using hcap)
      omega
    refine ⟨shift, ?_, hcount, 0, by ring,
      fun j hj => absurd hj (by omega)⟩
    unfold calculate_block_size_loop
    rw [if_neg (by omega)]
  | succ fuel ih =>
    intro shift hs hcap
    have h9 : SECTOR_SHIFT = 9 := rfl
    by_cases hguard : count_by_shift capacity shift > maxCount
    · have hs2 : SECTOR_SHIFT ≤ shift * 2 := by omega
      have hcap2 : capacity ≤ 2 ^ (shift * 2 - SECTOR_SHIFT + fuel) := by
        calc capacity ≤ 2 ^ (shift - SECTOR_SHIFT + (fuel + 1)) := hcap
          _ ≤ 2 ^ (shift * 2 - SECTOR_SHIFT + fuel) := by
              apply Nat.pow_le_pow_right (by omega)
              omega
      obtain ⟨s, hloop, hcount, k, hsk, hfirst⟩ := ih (shift * 2) hs2 hcap2
      refine ⟨s, ?_, hcount, k + 1, by rw [hsk]; ring, ?_⟩
      · unfold calculate_block_size_loop
        rw [if_pos hguard]
        exact hloop
      · intro j hj
        cases j with
        | zero => simpa using hguard
        | succ j2 =>
          have hmul : shift * 2 ^ (j2 + 1) = shift * 2 * 2 ^ j2 := by ring
          rw [hmul]
          exact hfirst j2 (by omega)
    · refine ⟨shift, ?_, by omega, 0, by ring,
        fun j hj => absurd hj (by omega)⟩
      unfold calculate_block_size_loop
      rw [if_neg hguard]

/-- C6: the CBT block-size derivation starts from the minimum shift and
doubles the shift until the ceiling of capacity over the block size is at
most the maximum block count; for every capacity the loop terminates, the
resulting block count never exceeds the maximum, and the resulting shift
is the first of the doubling sequence satisfying the bound. -/
theorem cbt_map_block_size_spec (minShift maxCount capacity : Nat)
    (hshift : SECTOR_SHIFT ≤ minShift) (hmax : 1 ≤ maxCount) :
    ∃ shift,
      cbt_map_calculate_block_size minShift maxCount capacity
        = some (shift, count_by_shift capacity shift) ∧
      count_by_shift capacity shift ≤ maxCount ∧
      ∃ k, shift = minShift * 2 ^ k ∧
        ∀ j < k, maxCount < count_by_shift capacity (minShift * 2 ^ j) := by
  have hcap : capacity ≤ 2 ^ (minShift - SECTOR_SHIFT + capacity) :=
    le_trans (Nat.le_of_lt (Nat.lt_two_pow capacity))
      (Nat.pow_le_pow_right (by omega) (by omega))
  obtain ⟨s, hloop, hcount, hfirst⟩ :=
    calculate_block_size_loop_spec capacity maxCount hmax capacity minShift
      hshift hcap
  refine ⟨s, ?_, hcount, hfirst⟩
  unfold cbt_map_calculate_block_size
  rw [hloop]

/-- Witness for C6: a 1000-sector device with `minShift = 16` and a cap
of 4 blocks. -/
theorem cbt_map_block_size_spec_witness :
    (SECTOR_SHIFT ≤ 16 ∧ 1 ≤ 4) ∧
    ∃ shift,
      cbt_map_calculate_block_size 16 4 1000
        = some (shift, count_by_shift 1000 shift) ∧
      count_by_shift 1000 shift ≤ 4 ∧
      ∃ k, shift = 16 * 2 ^ k ∧
        ∀ j < k, 4 < count_by_shift 1000 (16 * 2 ^ j) :=
  ⟨by decide, cbt_map_block_size_spec 16 4 1000 (by decide) (by decide)⟩

/-- When every diff-area allocation succeeds, the allocation loop of
`snapshot_take` attaches a diff area to every tracker. -/
theorem take_diff_areas_all_ok (env : TakeEnv)
    (hda : ∀ j, env.diffAreaOk j = true) :
    ∀ (i : Nat) (ts : List TrackerS),
      take_diff_areas env i ts
        = (0, ts.map (fun t => { t with has_diff_area := true })) := by
  intro i ts
  induction ts generalizing i with
  | nil => rfl
  | cons t rest ih =>
    unfold take_diff_areas
    rw [if_pos (hda i), ih (i + 1)]
    rfl

/-- When every tracker take succeeds, the take loop of `snapshot_take`
reports no failure and marks every tracker taken. -/
theorem take_trackers_all_ok (env : TakeEnv)
    (hok : ∀ j, env.takeOk j = true) :
    ∀ (i : Nat) (ts : List TrackerS),
      take_trackers env i ts
        = (0, none, ts.map (fun t => { t with taken := true })) := by
  intro i ts
  induction ts generalizing i with
  | nil => rfl
  | cons t rest ih =>
    unfold take_trackers
    rw [if_pos (hok i), ih (i + 1)]
    rfl

/-- When some tracker take fails, the take loop stops at the first
failure, returns the error, and rolling back the taken prefix leaves
every tracker not taken (provided none was taken to begin with). -/
theorem take_trackers_fail_rollback (env : TakeEnv) :
    ∀ (ts : List TrackerS) (i : Nat),
      (∀ t ∈ ts, t.taken = false) →
      (∃ j, j < ts.length ∧ env.takeOk (i + j) = false) →
      ∃ k, (take_trackers env i ts).2.1 = some k ∧
        (take_trackers env i ts).1 = env.errTake ∧ i ≤ k ∧
        ∀ t ∈ release_first (k - i) (take_trackers env i ts).2.2,
          t.taken = false := by
  intro ts
  induction ts with
  | nil =>
    rintro i _ ⟨j, hj, _⟩
    simp at hj
  | cons t rest ih =>
    rintro i hall ⟨j, hj, hfail⟩
    by_cases hok : env.takeOk i = true
    · have hstep : take_trackers env i (t :: rest)
          = ((take_trackers env (i + 1) rest).1,
             (take_trackers env (i + 1) rest).2.1,
             { t with taken := true }
               :: (take_trackers env (i + 1) rest).2.2) := by
        simp only [take_trackers]
        rw [if_pos hok]
      have hex2 : ∃ j2, j2 < rest.length
          ∧ env.takeOk (i + 1 + j2) = false := by
        cases j with
        | zero =>
          rw [Nat.add_zero] at hfail
          rw [hfail] at hok
          cases hok
        | succ j2 =>
          refine ⟨j2, by simpa using hj, ?_⟩
          have harith : i + 1 + j2 = i + (j2 + 1) := by omega
          rw [harith]
          exact hfail
      obtain ⟨k, hk1, hk2, hk3, hk4⟩ := ih (i + 1)
        (fun u hu => hall u (List.mem_cons_of_mem _ hu)) hex2
      refine ⟨k, ?_, ?_, by omega, ?_⟩
      · rw [hstep]; exact hk1
      · rw [hstep]; exact hk2
      · rw [hstep]
        have hki : k - i = (k - (i + 1)) + 1 := by omega
        rw [hki]
        intro u hu
        rcases List.mem_cons.mp hu with h | h
        · rw [h]
        · exact hk4 u h
    · have hstep : take_trackers env i (t :: rest)
          = (env.errTake, some i, t :: rest) := by
        unfold take_trackers
        rw [if_neg hok]
      refine ⟨i, by rw [hstep], by rw [hstep], le_refl i, ?_⟩
      rw [hstep]
      have hzero : i - i = 0 := by omega
      simp only [hzero, release_first]
      exact hall

/-- When some image creation fails, the image loop of `snapshot_take`
returns the image-creation error. -/
theorem take_images_fail (env : TakeEnv) :
    ∀ (n i : Nat), (∃ j, j < n ∧ env.imageOk (i + j) = false) →
      (take_images env i n).1 = env.errImage := by
  intro n
  induction n with
  | zero =>
    rintro i ⟨j, hj, _⟩
    omega
  | succ n ih =>
    rintro i ⟨j, hj, hfail⟩
    by_cases hok : env.imageOk i = true
    · have hstep : take_images env i (n + 1)
          = ((take_images env (i + 1) n).1,
             true :: (take_images env (i + 1) n).2) := by
        simp only [take_images]
        rw [if_pos hok]
      rw [hstep]
      apply ih
      cases j with
      | zero =>
        rw [Nat.add_zero] at hfail
        rw [hfail] at hok
        cases hok
      | succ j2 =>
        refine ⟨j2, by omega, ?_⟩
        have harith : i + 1 + j2 = i + (j2 + 1) := by omega
        rw [harith]
        exact hfail
    · unfold take_images
      rw [if_neg hok]

/-- If some tracker's diff area reports corrupted, the corruption check
of `snapshot_take` fires. -/
theorem any_corrupted_true (env : TakeEnv) (n : Nat)
    (h : ∃ j, j < n ∧ env.corruptedAfter j = true) :
    any_corrupted env 0 n = true := by
  obtain ⟨j, hj, hcor⟩ := h
  unfold any_corrupted
  rw [List.any_eq_true]
  exact ⟨j, by rw [List.mem_range'_1]; omega, hcor⟩

/-- If no tracker's diff area reports corrupted, the corruption check of
`snapshot_take` passes. -/
theorem any_corrupted_false (env : TakeEnv) (n : Nat)
    (h : ∀ j, env.corruptedAfter j = false) :
    any_corrupted env 0 n = false := by
  unfold any_corrupted
  rw [List.any_eq_false]
  intro j _
  simp [h j]

/-- C1 counterexample: when snap-image creation (step 8) fails,
`snapshot_take` returns the error but the snapshot stays in the registry
and the tracker stays taken — refuting the claim that a step-8 failure
releases the taken trackers and removes the snapshot from the registry. -/
theorem snapshot_take_step8_cex :
    (snapshot_take envImageFail false
      [{ taken := false, has_diff_area := false }]).ret = -5 ∧
    (snapshot_take envImageFail false
      [{ taken := false, has_diff_area := false }]).in_registry = true ∧
    (snapshot_take envImageFail false
      [{ taken := false, has_diff_area := false }]).freed = false ∧
    ((snapshot_take envImageFail false
      [{ taken := false, has_diff_area := false }]).trackers.map
        TrackerS.taken) = [true] := by
  decide

/-- C1 (amended): a failure of a tracker take (step 4) or a corrupted
diff area found after the take (step 7) aborts `snapshot_take`: the error
is returned, every tracker that had been switched to taken is released
again, and the snapshot is removed from the global registry and freed.  A
failure of snap-image creation (step 8), however, only returns the error:
the snapshot stays taken and registered and the taken trackers are not
released. -/
theorem snapshot_take_spec (env : TakeEnv) (ts : List TrackerS)
    (hne : ts ≠ [])
    (hclean : ∀ t ∈ ts, t.taken = false)
    (hda : ∀ j, env.diffAreaOk j = true)
    (herrT : env.errTake ≠ 0)
    (herrI : env.errImage ≠ 0) :
    ((∃ j, j < ts.length ∧ env.takeOk j = false) →
      (snapshot_take env false ts).ret = env.errTake ∧
      (snapshot_take env false ts).in_registry = false ∧
      (snapshot_take env false ts).freed = true ∧
      ∀ t ∈ (snapshot_take env false ts).trackers, t.taken = false) ∧
    ((∀ j, env.takeOk j = true) →
      (∃ j, j < ts.length ∧ env.corruptedAfter j = true) →
      (snapshot_take env false ts).ret = -14 ∧
      (snapshot_take env false ts).in_registry = false ∧
      (snapshot_take env false ts).freed = true ∧
      ∀ t ∈ (snapshot_take env false ts).trackers, t.taken = false) ∧
    ((∀ j, env.takeOk j = true) →
      (∀ j, env.corruptedAfter j = false) →
      (∃ j, j < ts.length ∧ env.imageOk j = false) →
      (snapshot_take env false ts).ret = env.errImage ∧
      (snapshot_take env false ts).ret ≠ 0 ∧
      (snapshot_take env false ts).in_registry = true ∧
      (snapshot_take env false ts).is_taken = true ∧
      (snapshot_take env false ts).freed = false ∧
      ∀ t ∈ (snapshot_take env false ts).trackers, t.taken = true) := by
  have hrd := take_diff_areas_all_ok env hda 0 ts
  have hlen2 : (ts.map
      (fun t => { t with has_diff_area := true })).length = ts.length := by
    simp
  have hclean2 : ∀ t ∈ ts.map (fun t => { t with has_diff_area := true }),
      t.taken = false := by
    intro u hu
    rw [List.mem_map] at hu
    obtain ⟨v, hv, rfl⟩ := hu
    exact hclean v hv
  refine ⟨?_, ?_, ?_⟩
  · intro hex
    obtain ⟨k, hk1, hk2, hk3, hk4⟩ := take_trackers_fail_rollback env
      (ts.map (fun t => { t with has_diff_area := true })) 0 hclean2
      (by obtain ⟨j, hj, hf⟩ := hex
          exact ⟨j, by omega, by simpa using hf⟩)
    have hout : snapshot_take env false ts
        = { ret := (take_trackers env 0
              (ts.map (fun t => { t with has_diff_area := true }))).1,
            trackers := release_first k (take_trackers env 0
              (ts.map (fun t => { t with has_diff_area := true }))).2.2,
            in_registry := false, is_taken := false, freed := true,
            images := [] } := by
      unfold snapshot_take
      rw [if_neg (by simp), if_neg (by simp [hne]), hrd]
      dsimp only
      rw [if_neg (by decide), hk1]
    rw [hout]
    refine ⟨hk2, rfl, rfl, ?_⟩
    simpa using hk4
  · intro hok hcor
    have hrt := take_trackers_all_ok env hok 0
      (ts.map (fun t => { t with has_diff_area := true }))
    have hout : snapshot_take env false ts
        = { ret := -14,
            trackers := snapshot_release_trackers
              ((ts.map (fun t => { t with has_diff_area := true })).map
                (fun t => { t with taken := true })),
            in_registry := false, is_taken := true, freed := true,
            images := [] } := by
      unfold snapshot_take
      rw [if_neg (by simp), if_neg (by simp [hne]), hrd]
      dsimp only
      rw [if_neg (by decide), hrt]
      dsimp only
      rw [if_pos (any_corrupted_true env _
        (by obtain ⟨j, hj, hc⟩ := hcor
            exact ⟨j, by simpa using hj, hc⟩))]
    rw [hout]
    refine ⟨rfl, rfl, rfl, ?_⟩
    intro u hu
    unfold snapshot_release_trackers at hu
    rw [List.mem_map] at hu
    obtain ⟨v, hv, rfl⟩ := hu
    rfl
  · intro hok hnc hex
    have hrt := take_trackers_all_ok env hok 0
      (ts.map (fun t => { t with has_diff_area := true }))
    have hri := take_images_fail env
      ((ts.map (fun t => { t with has_diff_area := true })).map
        (fun t => { t with taken := true })).length 0
      (by obtain ⟨j, hj, hf⟩ := hex
          exact ⟨j, by simpa using hj, by simpa using hf⟩)
    have hout : snapshot_take env false ts
        = { ret := (take_images env 0
              ((ts.map (fun t => { t with has_diff_area := true })).map
                (fun t => { t with taken := true })).length).1,
            trackers := (ts.map
                (fun t => { t with has_diff_area := true })).map
              (fun t => { t with taken := true }),
            in_registry := true, is_taken := true, freed := false,
            images := (take_images env 0
              ((ts.map (fun t => { t with has_diff_area := true })).map
                (fun t => { t with taken := true })).length).2 } := by
      unfold snapshot_take
      rw [if_neg (by simp), if_neg (by simp [hne]), hrd]
      dsimp only
      rw [if_neg (by decide), hrt]
      dsimp only
      rw [if_neg (by simp [any_corrupted_false env _ hnc])]
    rw [hout]
    refine ⟨hri, by rw [hri]; exact herrI, rfl, rfl, rfl, ?_⟩
    intro u hu
    rw [List.mem_map] at hu
    obtain ⟨v, hv, rfl⟩ := hu
    rfl

/-- Witness for C1 (amended): two trackers whose second take fails. -/
theorem snapshot_take_spec_witness :
    (twoTrackers ≠ [] ∧
      (∀ t ∈ twoTrackers, t.taken = false) ∧
      (∀ j, envTakeFail.diffAreaOk j = true) ∧
      envTakeFail.errTake ≠ 0 ∧ envTakeFail.errImage ≠ 0 ∧
      (∃ j, j < twoTrackers.length ∧ envTakeFail.takeOk j = false)) ∧
    ((snapshot_take envTakeFail false twoTrackers).ret
        = envTakeFail.errTake ∧
      (snapshot_take envTakeFail false twoTrackers).in_registry = false ∧
      (snapshot_take envTakeFail false twoTrackers).freed = true ∧
      ∀ t ∈ (snapshot_take envTakeFail false twoTrackers).trackers,
        t.taken = false) :=
  ⟨⟨by decide, by decide, fun j => rfl, by decide, by decide,
      ⟨1, by decide, by decide⟩⟩,
    (snapshot_take_spec envTakeFail twoTrackers (by decide) (by decide)
      (fun j => rfl) (by decide) (by decide)).1 ⟨1, by decide, by decide⟩⟩

/-- Witness for C7: a full read of a two-block map. -/
theorem cbt_map_read_to_user_spec_witness :
    (0 + 2 ≤ cbtTwoBlocks.blk_count ∧ 2 ≤ 2 ∧
      cbtTwoBlocks.is_corrupted = false) ∧
    cbt_map_read_to_user cbtTwoBlocks 0 2 2
      = .ok (2, ((cbtTwoBlocks.read_map.drop 0).take 2).take 2) :=
  ⟨by decide,
    (cbt_map_read_to_user_spec cbtTwoBlocks 0 2 2 (by decide) (by decide)).1
      rfl⟩
